import Mathlib

/-!
Shallow embedding of the protocol-encoding core of a Logitech LED
control tool (Rust), covering the per-model capability table
(`spec.rs`, `model.rs`), the raw packet builders (`packet.rs`), the
effect translator (`effects.rs`) and the key-set encoder / operation
facade (`api.rs`).  Machine integers (`u8`, `u16`, `u128`) are embedded
as `Nat` with explicit `% 2^w` reductions exactly where the Rust code
wraps; byte buffers are `List Nat`; fallible builders return `Option`.
-/

namespace LedControl

/-- RGB color, one byte per channel (`types.rs`, `struct Color`). -/
structure Color where
  red : Nat
  green : Nat
  blue : Nat
deriving DecidableEq, Repr

/-- The closed model enumeration (`model.rs`, `enum KeyboardModel`),
discriminants 0..10 in declaration order. -/
inductive KeyboardModel where
  | Unknown
  | G213
  | G410
  | G413
  | G512
  | G513
  | G610
  | G810
  | G815
  | G910
  | GPro
deriving DecidableEq, Repr

/-- Key scan codes (`types.rs`, `enum Key`): high byte = address group,
low byte = HID code. -/
inductive Key where
  | Logo | Logo2
  | Backlight | Game | Caps | Scroll | Num
  | Next | Prev | Stop | Play | Mute
  | G1 | G2 | G3 | G4 | G5 | G6 | G7 | G8 | G9
  | A | B | C | D | E | F | G | H | I | J | K | L | M
  | N | O | P | Q | R | S | T | U | V | W | X | Y | Z
  | N1 | N2 | N3 | N4 | N5 | N6 | N7 | N8 | N9 | N0
  | Enter | Esc | Backspace | Tab | Space | Minus | Equal
  | OpenBracket | CloseBracket | Backslash | Dollar | Semicolon
  | Quote | Tilde | Comma | Period | Slash | CapsLock
  | F1 | F2 | F3 | F4 | F5 | F6 | F7 | F8 | F9 | F10 | F11 | F12
  | PrintScreen | ScrollLock | PauseBreak | Insert | Home | PageUp
  | Del | End | PageDown
  | ArrowRight | ArrowLeft | ArrowBottom | ArrowTop
  | NumLock | NumSlash | NumAsterisk | NumMinus | NumPlus | NumEnter
  | Num1 | Num2 | Num3 | Num4 | Num5 | Num6 | Num7 | Num8 | Num9 | Num0
  | NumDot | IntlBackslash | Menu | AbntSlash
  | CtrlLeft | ShiftLeft | AltLeft | WinLeft
  | CtrlRight | ShiftRight | AltRight | WinRight
deriving DecidableEq, Repr

/-- The explicit `u16` discriminant of each `Key` (`types.rs`). -/
def Key.code : Key → Nat
  | .Logo => 0x0001
  | .Logo2 => 0x0002
  | .Backlight => 0x0101
  | .Game => 0x0102
  | .Caps => 0x0103
  | .Scroll => 0x0104
  | .Num => 0x0105
  | .Next => 0x02b5
  | .Prev => 0x02b6
  | .Stop => 0x02b7
  | .Play => 0x02cd
  | .Mute => 0x02e2
  | .G1 => 0x0301
  | .G2 => 0x0302
  | .G3 => 0x0303
  | .G4 => 0x0304
  | .G5 => 0x0305
  | .G6 => 0x0306
  | .G7 => 0x0307
  | .G8 => 0x0308
  | .G9 => 0x0309
  | .A => 0x0404
  | .B => 0x0405
  | .C => 0x0406
  | .D => 0x0407
  | .E => 0x0408
  | .F => 0x0409
  | .G => 0x040a
  | .H => 0x040b
  | .I => 0x040c
  | .J => 0x040d
  | .K => 0x040e
  | .L => 0x040f
  | .M => 0x0410
  | .N => 0x0411
  | .O => 0x0412
  | .P => 0x0413
  | .Q => 0x0414
  | .R => 0x0415
  | .S => 0x0416
  | .T => 0x0417
  | .U => 0x0418
  | .V => 0x0419
  | .W => 0x041a
  | .X => 0x041b
  | .Y => 0x041c
  | .Z => 0x041d
  | .N1 => 0x041e
  | .N2 => 0x041f
  | .N3 => 0x0420
  | .N4 => 0x0421
  | .N5 => 0x0422
  | .N6 => 0x0423
  | .N7 => 0x0424
  | .N8 => 0x0425
  | .N9 => 0x0426
  | .N0 => 0x0427
  | .Enter => 0x0428
  | .Esc => 0x0429
  | .Backspace => 0x042a
  | .Tab => 0x042b
  | .Space => 0x042c
  | .Minus => 0x042d
  | .Equal => 0x042e
  | .OpenBracket => 0x042f
  | .CloseBracket => 0x0430
  | .Backslash => 0x0431
  | .Dollar => 0x0432
  | .Semicolon => 0x0433
  | .Quote => 0x0434
  | .Tilde => 0x0435
  | .Comma => 0x0436
  | .Period => 0x0437
  | .Slash => 0x0438
  | .CapsLock => 0x0439
  | .F1 => 0x043a
  | .F2 => 0x043b
  | .F3 => 0x043c
  | .F4 => 0x043d
  | .F5 => 0x043e
  | .F6 => 0x043f
  | .F7 => 0x0440
  | .F8 => 0x0441
  | .F9 => 0x0442
  | .F10 => 0x0443
  | .F11 => 0x0444
  | .F12 => 0x0445
  | .PrintScreen => 0x0446
  | .ScrollLock => 0x0447
  | .PauseBreak => 0x0448
  | .Insert => 0x0449
  | .Home => 0x044a
  | .PageUp => 0x044b
  | .Del => 0x044c
  | .End => 0x044d
  | .PageDown => 0x044e
  | .ArrowRight => 0x044f
  | .ArrowLeft => 0x0450
  | .ArrowBottom => 0x0451
  | .ArrowTop => 0x0452
  | .NumLock => 0x0453
  | .NumSlash => 0x0454
  | .NumAsterisk => 0x0455
  | .NumMinus => 0x0456
  | .NumPlus => 0x0457
  | .NumEnter => 0x0458
  | .Num1 => 0x0459
  | .Num2 => 0x045a
  | .Num3 => 0x045b
  | .Num4 => 0x045c
  | .Num5 => 0x045d
  | .Num6 => 0x045e
  | .Num7 => 0x045f
  | .Num8 => 0x0460
  | .Num9 => 0x0461
  | .Num0 => 0x0462
  | .NumDot => 0x0463
  | .IntlBackslash => 0x0464
  | .Menu => 0x0465
  | .AbntSlash => 0x0487
  | .CtrlLeft => 0x04e0
  | .ShiftLeft => 0x04e1
  | .AltLeft => 0x04e2
  | .WinLeft => 0x04e3
  | .CtrlRight => 0x04e4
  | .ShiftRight => 0x04e5
  | .AltRight => 0x04e6
  | .WinRight => 0x04e7

/-- Address-group nibble: `(self as u16 >> 8) as u8` (`types.rs`). -/
def Key.group (k : Key) : Nat := k.code / 256

/-- An immutable (key, color) pair (`types.rs`, `struct KeyValue`). -/
structure KeyValue where
  key : Key
  color : Color
deriving DecidableEq, Repr

/-- `Vec::resize(size, 0)` as used by `pad` in `packet.rs`: extend with
zero bytes up to `size` (and truncate if longer, which `resize` also
does). -/
def padTo (data : List Nat) (size : Nat) : List Nat :=
  data.take size ++ List.replicate (size - data.length) 0

/-! Constant packet headers from `packet.rs`. -/

def PKT_COMMIT_GX : List Nat := [0x11, 0xff, 0x0c, 0x5a]
def PKT_COMMIT_G815 : List Nat := [0x11, 0xff, 0x10, 0x7f]
def PKT_COMMIT_G910 : List Nat := [0x11, 0xff, 0x0f, 0x5d]

def PKT_ADDR_0 : List Nat := [0x11, 0xff, 0x0c, 0x3a, 0x00, 0x10, 0x00, 0x01]
def PKT_ADDR_1 : List Nat := [0x12, 0xff, 0x0c, 0x3a, 0x00, 0x40, 0x00, 0x05]
def PKT_ADDR_2 : List Nat := [0x12, 0xff, 0x0c, 0x3a, 0x00, 0x02, 0x00, 0x05]
def PKT_ADDR_4C : List Nat := [0x12, 0xff, 0x0c, 0x3a, 0x00, 0x01, 0x00, 0x0e]
def PKT_ADDR_4F : List Nat := [0x12, 0xff, 0x0f, 0x3d, 0x00, 0x01, 0x00, 0x0e]
def PKT_ADDR_G910_0 : List Nat := [0x11, 0xff, 0x0f, 0x3a, 0x00, 0x10, 0x00, 0x02]
def PKT_ADDR_G910_3 : List Nat := [0x12, 0xff, 0x0f, 0x3e, 0x00, 0x04, 0x00, 0x09]
def PKT_ADDR_G815 : List Nat := [0x11, 0xff, 0x10, 0x1c]

/-- `commit_packet` (`packet.rs`): the commit header padded to 20
bytes, or `none` for the non-transactional G213/G413 and for Unknown. -/
def commit_packet (model : KeyboardModel) : Option (List Nat) :=
  match model with
  | .G410 | .G512 | .G513 | .G610 | .G810 | .GPro => some (padTo PKT_COMMIT_GX 20)
  | .G815 => some (padTo PKT_COMMIT_G815 20)
  | .G910 => some (padTo PKT_COMMIT_G910 20)
  | _ => none

/-- `group_address` (`packet.rs`): raw HID header for a key group.  The
Rust `match (model, group)` arms are rendered as per-model equality
chains on the `Nat`-embedded group byte. -/
def group_address (model : KeyboardModel) (group : Nat) : Option (List Nat) :=
  match model with
  | .G410 | .G512 | .G513 | .GPro =>
      if group = 0 then some PKT_ADDR_0
      else if group = 1 then some PKT_ADDR_1
      else if group = 4 then some PKT_ADDR_4C
      else none
  | .G610 | .G810 =>
      if group = 0 then some PKT_ADDR_0
      else if group = 1 then some PKT_ADDR_1
      else if group = 4 then some PKT_ADDR_4C
      else if group = 2 then some PKT_ADDR_2
      else none
  | .G815 => some PKT_ADDR_G815
  | .G910 =>
      if group = 0 then some PKT_ADDR_G910_0
      else if group = 1 then some PKT_ADDR_1
      else if group = 3 then some PKT_ADDR_G910_3
      else if group = 4 then some PKT_ADDR_4F
      else none
  | _ => none

/-- `g815_key_id` (`packet.rs`): translate a `Key` into the byte
identifier used by the G815; `wrapping_add`/`wrapping_sub` on `u8`
become `% 256` arithmetic on the low byte (which is itself `< 256`). -/
def g815_key_id (key : Key) : Option Nat :=
  let low := key.code % 256
  match key with
  | .Logo2 | .Game | .Caps | .Scroll | .Num | .Stop
  | .G6 | .G7 | .G8 | .G9 => none
  | .Play => some 0x9b
  | .Mute => some 0x9c
  | .Next => some 0x9d
  | .Prev => some 0x9e
  | .CtrlLeft | .ShiftLeft | .AltLeft | .WinLeft
  | .CtrlRight | .ShiftRight | .AltRight | .WinRight =>
      some ((low + 256 - 0x78) % 256)
  | _ =>
      match key.group with
      | 0 => some ((low + 0xd1) % 256)
      | 1 => some ((low + 0x98) % 256)
      | 3 => some ((low + 0xb3) % 256)
      | 4 => some ((low + 256 - 0x03) % 256)
      | _ => none

/-- Report size used by the generic key-set path: 20 bytes for group 0
(logo), 64 otherwise (`api.rs` / `packet.rs`). -/
def report_size (group : Nat) : Nat := if group = 0 then 20 else 64

/-- Keys per packet in the generic path: `(size - 8) / 4`. -/
def max_keys (group : Nat) : Nat := (report_size group - 8) / 4

/-- `set_keys_packet` (`packet.rs`): build one HID report setting one
or more keys.  Empty slice: `none`.  G213/G413: `none`.  G815: single
shared color, then up to 13 translated key identifiers and a `0xff`
sentinel if there is spare room.  Generic path: address-group header,
then `(hid, R, G, B)` quadruples up to capacity, padded to size. -/
def set_keys_packet (model : KeyboardModel) (keys : List KeyValue) : Option (List Nat) :=
  match keys with
  | [] => none
  | kv0 :: _ =>
    match model with
    | .G213 | .G413 => none
    | .G815 =>
      let color := kv0.color
      if keys.any (fun k => decide (k.color ≠ color)) then none
      else
        let data := [0x11, 0xff, 0x10, 0x6c, color.red, color.green, color.blue]
          ++ ((keys.take 13).filterMap (fun kv => g815_key_id kv.key))
        let data2 := if data.length < 20 then data ++ [0xff] else data
        some (padTo data2 20)
    | _ =>
      let group := kv0.key.group
      if keys.any (fun k => decide (k.key.group ≠ group)) then none
      else
        match group_address model group with
        | none => none
        | some addr =>
          let data := addr ++
            ((keys.take (max_keys group)).map
              (fun kv => [kv.key.code % 256, kv.color.red, kv.color.green, kv.color.blue])).flatten
          some (padTo data (report_size group))

/-- `region_packet` (`packet.rs`): region color packet, G213 only. -/
def region_packet (model : KeyboardModel) (region : Nat) (color : Color) : Option (List Nat) :=
  match model with
  | .G213 =>
      some (padTo [0x11, 0xff, 0x0c, 0x3a, region, 0x01, color.red, color.green, color.blue] 20)
  | _ => none

/-! Effect enumerations (`effects.rs`). -/

/-- `enum NativeEffectGroup`, `repr(u8)`, discriminants 0..5. -/
inductive NativeEffectGroup where
  | Off
  | Color
  | Breathing
  | Cycle
  | Waves
  | Ripple
deriving DecidableEq, Repr

/-- Discriminant of a `NativeEffectGroup`. -/
def NativeEffectGroup.disc : NativeEffectGroup → Nat
  | .Off => 0
  | .Color => 1
  | .Breathing => 2
  | .Cycle => 3
  | .Waves => 4
  | .Ripple => 5

/-- Inverse decoding of a `u8` into a `NativeEffectGroup`, the checked
counterpart of the `transmute` in `NativeEffect::group`. -/
def NativeEffectGroup.ofDisc (n : Nat) : Option NativeEffectGroup :=
  if n = 0 then some .Off
  else if n = 1 then some .Color
  else if n = 2 then some .Breathing
  else if n = 3 then some .Cycle
  else if n = 4 then some .Waves
  else if n = 5 then some .Ripple
  else none

/-- `enum NativeEffect`, `repr(u16)`: high byte is the group. -/
inductive NativeEffect where
  | Off
  | Color
  | Breathing
  | Cycle
  | Waves
  | HWave
  | VWave
  | CWave
  | Ripple
deriving DecidableEq, Repr

/-- The explicit `u16` discriminant of each `NativeEffect`
(`effects.rs`): `group << 8`, with the wave sub-variants following
`Waves` implicitly (0x401..0x403). -/
def NativeEffect.disc : NativeEffect → Nat
  | .Off => 0x000
  | .Color => 0x100
  | .Breathing => 0x200
  | .Cycle => 0x300
  | .Waves => 0x400
  | .HWave => 0x401
  | .VWave => 0x402
  | .CWave => 0x403
  | .Ripple => 0x500

/-- `NativeEffect::group`: the source transmutes the high byte into a
`NativeEffectGroup`; the embedding decodes it with
`NativeEffectGroup.ofDisc` (total on this enumeration, see the C10
theorem) and uses `.Off` for the unreachable failure branch. -/
def NativeEffect.group (e : NativeEffect) : NativeEffectGroup :=
  match NativeEffectGroup.ofDisc (e.disc / 256) with
  | some g => g
  | none => .Off

/-- `enum NativeEffectPart`: All = 0xff, Keys = 0x00, Logo = 0x01. -/
inductive NativeEffectPart where
  | All
  | Keys
  | Logo
deriving DecidableEq, Repr

/-- Discriminant of a `NativeEffectPart`. -/
def NativeEffectPart.disc : NativeEffectPart → Nat
  | .All => 0xff
  | .Keys => 0x00
  | .Logo => 0x01

/-- `enum NativeEffectStorage`: None = 0x00, User = 0x01. -/
inductive NativeEffectStorage where
  | None
  | User
deriving DecidableEq, Repr

/-- Discriminant of a `NativeEffectStorage`. -/
def NativeEffectStorage.disc : NativeEffectStorage → Nat
  | .None => 0x00
  | .User => 0x01

/-- `native_effect_packet` (`packet.rs`): the 20-byte effect
descriptor.  `period` is embedded as the (exact) number of milliseconds
of the Rust `Duration` (its `as_millis()` value); the cast
`as_millis() as u16` is the truncation `% 65536`, and `>> 8` / `& 0xff`
are `/ 256` / `% 256`.  `none` for `part = All` and for models without
an effect register pair (Unknown). -/
def native_effect_packet (model : KeyboardModel) (effect : NativeEffect)
    (part : NativeEffectPart) (period : Nat) (color : Color)
    (storage : NativeEffectStorage) : Option (List Nat) :=
  match part with
  | .All => none
  | _ =>
    let pp : Option (Nat × Nat) :=
      match model with
      | .G213 | .G413 => some (0x0c, 0x3c)
      | .G410 | .G512 | .G513 | .G610 | .G810 | .GPro => some (0x0d, 0x3c)
      | .G815 => some (0x0f, 0x1c)
      | .G910 => some (0x10, 0x3c)
      | .Unknown => none
    match pp with
    | none => none
    | some (p0, p1) =>
      let per_ms := period % 65536
      some (padTo [0x11, 0xff, p0, p1, part.disc, effect.disc / 256,
        color.red, color.green, color.blue,
        per_ms / 256, per_ms % 256, per_ms / 256, per_ms % 256,
        effect.disc % 256, 0x64, per_ms / 256, storage.disc,
        0x00, 0x00, 0x00] 20)

/-- The fixed cyan fallback color (`effects.rs`, `const CYAN`). -/
def CYAN : Color := { red := 0x00, green := 0xff, blue := 0xff }

/-- Steps 2-5 of `native_effect_packets` (`effects.rs`) for a part
other than `All`: the logo short-circuit on G213/G413, the base
packet, the G815 setup/patch sequence, and the Waves-on-logo fallback
to static cyan (the source re-invokes the whole translator there; the
argument `part` is `Logo` in that branch, so the re-invocation lands
back in this function). -/
def native_effect_packets_go (fuel : Nat) (model : KeyboardModel) (effect : NativeEffect)
    (part : NativeEffectPart) (period : Nat) (color : Color)
    (storage : NativeEffectStorage) : Option (List (List Nat)) :=
  match fuel with
  | 0 => none
  | fuel + 1 =>
    if (model = .G213 ∨ model = .G413) ∧ part = .Logo then
      some []
    else
      match native_effect_packet model effect part period color storage with
      | none => none
      | some data0 =>
        match model with
        | .G815 =>
          let setup := padTo [0x11, 0xff, 0x0f, 0x5c, 0x01, 0x03, 0x03] 20
          let data1 := data0.set 16 0x01
          let data2 :=
            match part with
            | .Keys =>
              let d := data1.set 4 0x01
              if effect = .Ripple then
                -- `period.as_millis().try_into().unwrap_or(u16::MAX)`:
                -- saturating, unlike the plain cast in the base packet.
                let per_ms := min period 0xffff
                (((d.set 9 0x00).set 10 (per_ms / 256)).set 11 (per_ms % 256)).set 12 0x00
              else d
            | .Logo =>
              let d := data1.set 4 0x00
              match effect with
              | .Breathing => d.set 5 0x03
              | .CWave | .VWave | .HWave => (d.set 13 0x64).set 5 0x02
              | .Waves | .Cycle => d.set 5 0x02
              | .Ripple | .Off => d.set 5 0x00
              | _ => d.set 5 0x01
            | .All => data1
          some [setup, data2]
        | _ =>
          if effect.group = .Waves ∧ part = .Logo then
            native_effect_packets_go fuel model .Color part 0 CYAN storage
          else
            some [data0]

/-- Entry point for the non-All part of the translator.  The single
recursion point (Waves on logo falling back to static cyan) re-invokes
the body with effect = Color, whose group is not Waves, so the
recursion depth is at most 2 and fuel 2 realises the source's
unbounded recursion exactly. -/
def native_effect_packets_core (model : KeyboardModel) (effect : NativeEffect)
    (part : NativeEffectPart) (period : Nat) (color : Color)
    (storage : NativeEffectStorage) : Option (List (List Nat)) :=
  native_effect_packets_go 2 model effect part period color storage

/-- `native_effect_packets` (`effects.rs`): the only extra case over
the core is the `All` expansion, which concatenates whatever the
`Keys` and `Logo` recursive calls produce (`filter_map` drops a `None`
sub-result, so each contributes its packets or nothing) and always
succeeds.  The recursive calls have `part ≠ All`, hence equal the
core. -/
def native_effect_packets (model : KeyboardModel) (effect : NativeEffect)
    (part : NativeEffectPart) (period : Nat) (color : Color)
    (storage : NativeEffectStorage) : Option (List (List Nat)) :=
  match part with
  | .All =>
      some (((native_effect_packets_core model effect .Keys period color storage).getD []) ++
            ((native_effect_packets_core model effect .Logo period color storage).getD []))
  | _ => native_effect_packets_core model effect part period color storage

/-! The static model registry (`spec.rs`). -/

/-- `struct ModelSpec` (`spec.rs`); every field defaults to the
"absent" value produced by `ModelSpec::builder()`. -/
structure ModelSpec where
  commit : Option (List Nat) := none
  group_addresses : List (Nat × List Nat) := []
  effect_params : Option (Nat × Nat) := none
  mr_header : Option (List Nat) := none
  mn_header : Option (List Nat) := none
  mn_map : Option (List (Nat × Nat)) := none
  gkeys_header : Option (List Nat) := none
  startup_header : Option (List Nat) := none
  onboard_header : Option (List Nat) := none
  keys_header : Option (List Nat) := none
  region_header : Option (List Nat) := none
deriving DecidableEq, Repr

/-- `ADDR_GX` (`spec.rs`). -/
def ADDR_GX : List (Nat × List Nat) :=
  [(0, [0x11, 0xff, 0x0c, 0x3a, 0x00, 0x10, 0x00, 0x01]),
   (1, [0x12, 0xff, 0x0c, 0x3a, 0x00, 0x40, 0x00, 0x05]),
   (4, [0x12, 0xff, 0x0f, 0x3d, 0x00, 0x01, 0x00, 0x0e])]

/-- `ADDR_G610_G810` (`spec.rs`). -/
def ADDR_G610_G810 : List (Nat × List Nat) :=
  ADDR_GX ++ [(2, [0x12, 0xff, 0x0c, 0x3a, 0x00, 0x02, 0x00, 0x05])]

/-- `ADDR_G815` (`spec.rs`). -/
def ADDR_G815 : List (Nat × List Nat) := [(0, [0x11, 0xff, 0x10, 0x1c])]

/-- `ADDR_G910` (`spec.rs`). -/
def ADDR_G910 : List (Nat × List Nat) :=
  [(0, [0x11, 0xff, 0x0f, 0x3a, 0x00, 0x10, 0x00, 0x02]),
   (1, [0x12, 0xff, 0x0c, 0x3a, 0x00, 0x40, 0x00, 0x05]),
   (3, [0x12, 0xff, 0x0f, 0x3e, 0x00, 0x04, 0x00, 0x09]),
   (4, [0x12, 0xff, 0x0f, 0x3d, 0x00, 0x01, 0x00, 0x0e])]

/-- The `with_gx_defaults(bank)` builder step (`spec.rs`). -/
def withGxDefaults (bank : Nat) (s : ModelSpec) : ModelSpec :=
  { s with effect_params := some (bank, 0x3c),
           startup_header := some [0x11, 0xff, 0x0d, 0x5a, 0x00, 0x01] }

/-- The static `MODEL_SPECS` array (`spec.rs`), indexed here directly
by the `KeyboardModel` whose discriminant is the array position. -/
def MODEL_SPECS : KeyboardModel → ModelSpec
  | .Unknown => {}
  | .G213 => withGxDefaults 0x0c
      { group_addresses := ADDR_GX, region_header := some [0x11, 0xff, 0x0c, 0x3a] }
  | .G410 => withGxDefaults 0x0d
      { commit := some [0x11, 0xff, 0x0c, 0x5a], group_addresses := ADDR_GX }
  | .G413 => withGxDefaults 0x0c { group_addresses := ADDR_GX }
  | .G512 => withGxDefaults 0x0d
      { commit := some [0x11, 0xff, 0x0c, 0x5a], group_addresses := ADDR_GX }
  | .G513 => withGxDefaults 0x0d
      { commit := some [0x11, 0xff, 0x0c, 0x5a], group_addresses := ADDR_GX }
  | .G610 => withGxDefaults 0x0d
      { commit := some [0x11, 0xff, 0x0c, 0x5a], group_addresses := ADDR_G610_G810 }
  | .G810 => withGxDefaults 0x0d
      { commit := some [0x11, 0xff, 0x0c, 0x5a], group_addresses := ADDR_G610_G810 }
  | .G815 =>
      { commit := some [0x11, 0xff, 0x10, 0x7f],
        group_addresses := ADDR_G815,
        effect_params := some (0x0f, 0x1c),
        mr_header := some [0x11, 0xff, 0x0c, 0x0c],
        mn_header := some [0x11, 0xff, 0x0b, 0x1c],
        mn_map := some [(0x01, 0x01), (0x02, 0x02), (0x03, 0x04)],
        gkeys_header := some [0x11, 0xff, 0x0a, 0x2b],
        onboard_header := some [0x11, 0xff, 0x11, 0x1a],
        keys_header := some [0x11, 0xff, 0x10, 0x6c] }
  | .G910 =>
      { commit := some [0x11, 0xff, 0x0f, 0x5d],
        group_addresses := ADDR_G910,
        effect_params := some (0x10, 0x3c),
        mr_header := some [0x11, 0xff, 0x0a, 0x0e],
        mn_header := some [0x11, 0xff, 0x09, 0x1e],
        gkeys_header := some [0x11, 0xff, 0x08, 0x2e],
        startup_header := some [0x11, 0xff, 0x10, 0x5e, 0x00, 0x01] }
  | .GPro => withGxDefaults 0x0d
      { commit := some [0x11, 0xff, 0x0c, 0x5a], group_addresses := ADDR_GX }

/-! The operation facade (`api.rs`), embedded as pure functions from
the operation arguments to the ordered list of packets it hands to the
transport, plus an explicit transport-run function. -/

/-- Fuel-driven body of `chunksOf`; the fuel is an upper bound on the
list length, so the zero-fuel arm is never reached from `chunksOf`. -/
def chunksOfAux (n : Nat) : Nat → List α → List (List α)
  | _, [] => []
  | 0, _ :: _ => []
  | fuel + 1, x :: xs => (x :: xs.take (n - 1)) :: chunksOfAux n fuel (xs.drop (n - 1))

/-- `slice::chunks(n)`: consecutive chunks of at most `n` elements, in
order, the last one possibly shorter (never empty; `n` is always
positive at the call sites). -/
def chunksOf (n : Nat) (l : List α) : List (List α) :=
  chunksOfAux n l.length l

/-- The ascending key order of a `BTreeMap<(u8,u8,u8), _>` keyed by
color tuples: lexicographic on (red, green, blue). -/
def colorLe (a b : Color) : Prop :=
  a.red < b.red ∨ (a.red = b.red ∧
    (a.green < b.green ∨ (a.green = b.green ∧ a.blue ≤ b.blue)))

instance : DecidableRel colorLe := fun a b => by
  unfold colorLe; infer_instance

instance : IsTotal Color colorLe :=
  ⟨fun a b => by unfold colorLe; omega⟩

instance : IsTrans Color colorLe :=
  ⟨fun a b c hab hbc => by unfold colorLe at hab hbc ⊢; omega⟩

/-- The supported models that use the generic (address-group) key-set
path: every model except the keyless G213/G413, the single-color G815
and the unsupported Unknown. -/
def generic_supported (model : KeyboardModel) : Prop :=
  model = .G410 ∨ model = .G512 ∨ model = .G513 ∨ model = .G610 ∨
  model = .G810 ∨ model = .G910 ∨ model = .GPro

instance (model : KeyboardModel) : Decidable (generic_supported model) := by
  unfold generic_supported; infer_instance

/-- The key sequence over which a `BTreeMap` built by pushing the
elements of `l` is iterated: the distinct keys, in ascending `r`
order. -/
def btreeKeys (r : α → α → Prop) [DecidableRel r] [DecidableEq α] (l : List α) : List α :=
  l.dedup.insertionSort r

/-- The packet sequence sent by `KeyboardApi::set_keys` (`api.rs`):
empty batch returns immediately; G213/G413 send nothing; the G815
partitions by color (BTreeMap iterated in ascending color order, each
partition holding its keys in batch order, which is `filter`), chunks
each partition by 13 and sends every packet the builder yields; all
other models partition by address group (ascending group order) and
chunk by `max_keys` of the group. -/
def set_keys_sent (model : KeyboardModel) (keys : List KeyValue) : List (List Nat) :=
  if keys = [] then []
  else
    match model with
    | .G213 | .G413 => []
    | .G815 =>
      ((btreeKeys colorLe (keys.map (fun kv => kv.color))).map (fun col =>
        (chunksOf 13 (keys.filter (fun kv => kv.color == col))).filterMap
          (fun chunk => set_keys_packet .G815 chunk))).flatten
    | _ =>
      ((btreeKeys (· ≤ ·) (keys.map (fun kv => kv.key.group))).map (fun g =>
        (chunksOf (max_keys g) (keys.filter (fun kv => kv.key.group == g))).filterMap
          (fun chunk => set_keys_packet model chunk))).flatten

/-- Packets sent by `KeyboardApi::commit` (`api.rs`). -/
def commit_sent (model : KeyboardModel) : List (List Nat) :=
  match commit_packet model with
  | some p => [p]
  | none => []

/-- Packets sent by `KeyboardApi::set_region` (`api.rs`). -/
def set_region_sent (model : KeyboardModel) (region : Nat) (color : Color) : List (List Nat) :=
  match region_packet model region color with
  | some p => [p]
  | none => []

/-- The raw packet `KeyboardApi::set_mr_key` builds before the resize
to 20 bytes (`api.rs`): G815/G910 only, value restricted to 0 or 1. -/
def set_mr_key_packet (model : KeyboardModel) (value : Nat) : Option (List Nat) :=
  match model with
  | .G815 => if value = 0 ∨ value = 1 then some [0x11, 0xff, 0x0c, 0x0c, value] else none
  | .G910 => if value = 0 ∨ value = 1 then some [0x11, 0xff, 0x0a, 0x0e, value] else none
  | _ => none

/-- Packets sent by `KeyboardApi::set_mr_key` (`api.rs`). -/
def set_mr_key_sent (model : KeyboardModel) (value : Nat) : List (List Nat) :=
  match set_mr_key_packet model value with
  | some d => [padTo d 20]
  | none => []

/-- The raw packet `KeyboardApi::set_mn_key` builds (`api.rs`): the
G815 maps 1/2/3 to 1/2/4, the G910 accepts 0..7 verbatim. -/
def set_mn_key_packet (model : KeyboardModel) (value : Nat) : Option (List Nat) :=
  match model with
  | .G815 =>
      if value = 1 then some [0x11, 0xff, 0x0b, 0x1c, 0x01]
      else if value = 2 then some [0x11, 0xff, 0x0b, 0x1c, 0x02]
      else if value = 3 then some [0x11, 0xff, 0x0b, 0x1c, 0x04]
      else none
  | .G910 => if value ≤ 7 then some [0x11, 0xff, 0x09, 0x1e, value] else none
  | _ => none

/-- Packets sent by `KeyboardApi::set_mn_key` (`api.rs`). -/
def set_mn_key_sent (model : KeyboardModel) (value : Nat) : List (List Nat) :=
  match set_mn_key_packet model value with
  | some d => [padTo d 20]
  | none => []

/-- The raw packet `KeyboardApi::set_gkeys_mode` builds (`api.rs`). -/
def set_gkeys_mode_packet (model : KeyboardModel) (value : Nat) : Option (List Nat) :=
  match model with
  | .G815 => if value = 0 ∨ value = 1 then some [0x11, 0xff, 0x0a, 0x2b, value] else none
  | .G910 => if value = 0 ∨ value = 1 then some [0x11, 0xff, 0x08, 0x2e, value] else none
  | _ => none

/-- Packets sent by `KeyboardApi::set_gkeys_mode` (`api.rs`). -/
def set_gkeys_mode_sent (model : KeyboardModel) (value : Nat) : List (List Nat) :=
  match set_gkeys_mode_packet model value with
  | some d => [padTo d 20]
  | none => []

/-- `enum StartupMode` (`types.rs`): Wave = 1, Color = 2. -/
inductive StartupMode where
  | Wave
  | Color
deriving DecidableEq, Repr

/-- Discriminant of a `StartupMode`. -/
def StartupMode.disc : StartupMode → Nat
  | .Wave => 0x01
  | .Color => 0x02

/-- `enum OnBoardMode` (`types.rs`): Board = 1, Software = 2. -/
inductive OnBoardMode where
  | Board
  | Software
deriving DecidableEq, Repr

/-- Discriminant of an `OnBoardMode`. -/
def OnBoardMode.disc : OnBoardMode → Nat
  | .Board => 0x01
  | .Software => 0x02

/-- The per-model startup-mode header (`api.rs`,
`KeyboardApi::set_startup_mode`). -/
def set_startup_mode_header (model : KeyboardModel) : Option (List Nat) :=
  match model with
  | .G213 | .G410 | .G610 | .G810 | .GPro => some [0x11, 0xff, 0x0d, 0x5a, 0x00, 0x01]
  | .G910 => some [0x11, 0xff, 0x10, 0x5e, 0x00, 0x01]
  | _ => none

/-- Packets sent by `KeyboardApi::set_startup_mode` (`api.rs`): the
header, the mode byte, resized to 20. -/
def set_startup_mode_sent (model : KeyboardModel) (mode : StartupMode) : List (List Nat) :=
  match set_startup_mode_header model with
  | some d => [padTo (d ++ [mode.disc]) 20]
  | none => []

/-- The raw packet `KeyboardApi::set_on_board_mode` builds (`api.rs`). -/
def set_on_board_mode_packet (model : KeyboardModel) (mode : OnBoardMode) : Option (List Nat) :=
  match model with
  | .G815 => some [0x11, 0xff, 0x11, 0x1a, mode.disc]
  | _ => none

/-- Packets sent by `KeyboardApi::set_on_board_mode` (`api.rs`). -/
def set_on_board_mode_sent (model : KeyboardModel) (mode : OnBoardMode) : List (List Nat) :=
  match set_on_board_mode_packet model mode with
  | some d => [padTo d 20]
  | none => []

/-- Packets sent by `KeyboardApi::set_fx` (`api.rs`): every packet the
translator yields, in order; a `None` translator result sends
nothing. -/
def set_fx_sent (model : KeyboardModel) (effect : NativeEffect) (part : NativeEffectPart)
    (period : Nat) (color : Color) (storage : NativeEffectStorage) : List (List Nat) :=
  (native_effect_packets model effect part period color storage).getD []

/-- Run a packet sequence against a transport whose `send` either
succeeds (`true`) or fails: returns the packets actually handed to the
transport, in order, and whether the whole operation succeeded.  A
failing send still counts as handed over, and aborts the rest, exactly
as the `?` on `send_packet` does in `api.rs`. -/
def runSends (send : List Nat → Bool) : List (List Nat) → List (List Nat) × Bool
  | [] => ([], true)
  | p :: ps =>
      if send p then
        let r := runSends send ps
        (p :: r.1, r.2)
      else ([p], false)

/-! Helper lemmas. -/

theorem runSends_nil (send : List Nat → Bool) : runSends send [] = ([], true) := rfl

theorem filterMap_eq_nil_of_none {f : α → Option β} {l : List α}
    (h : ∀ a ∈ l, f a = none) : l.filterMap f = [] := by
  induction l with
  | nil => rfl
  | cons x xs ih =>
      rw [List.filterMap_cons, h x (List.mem_cons_self x xs)]
      exact ih fun a ha => h a (List.mem_cons_of_mem x ha)

theorem flatten_map_eq_nil {f : α → List β} {l : List α}
    (h : ∀ a ∈ l, f a = []) : (l.map f).flatten = [] := by
  induction l with
  | nil => rfl
  | cons x xs ih =>
      rw [List.map_cons, List.flatten_cons, h x (List.mem_cons_self x xs)]
      exact ih fun a ha => h a (List.mem_cons_of_mem x ha)

theorem chunksOfAux_congr (n : Nat) :
    ∀ (fuel1 fuel2 : Nat) (l : List α), l.length ≤ fuel1 → l.length ≤ fuel2 →
      chunksOfAux n fuel1 l = chunksOfAux n fuel2 l := by
  intro fuel1
  induction fuel1 with
  | zero =>
      intro fuel2 l h1 h2
      cases l with
      | nil => cases fuel2 <;> rfl
      | cons x xs => simp at h1
  | succ f ih =>
      intro fuel2 l h1 h2
      cases l with
      | nil => cases fuel2 <;> rfl
      | cons x xs =>
          cases fuel2 with
          | zero => simp at h2
          | succ f2 =>
              simp only [chunksOfAux]
              congr 1
              exact ih f2 (xs.drop (n - 1))
                (by simp only [List.length_drop, List.length_cons] at *; omega)
                (by simp only [List.length_drop, List.length_cons] at *; omega)

theorem chunksOf_cons (n : Nat) (x : α) (xs : List α) :
    chunksOf n (x :: xs) = (x :: xs.take (n - 1)) :: chunksOf n (xs.drop (n - 1)) := by
  simp only [chunksOf, List.length_cons, chunksOfAux]
  congr 1
  exact chunksOfAux_congr n xs.length (xs.drop (n - 1)).length (xs.drop (n - 1))
    (by simp only [List.length_drop]; omega) (Nat.le_refl _)

theorem chunksOf_length (n : Nat) (hn : 0 < n) (l : List α) :
    (chunksOf n l).length = (l.length + n - 1) / n := by
  generalize hN : l.length = N
  induction N using Nat.strong_induction_on generalizing l with
  | _ N ih =>
    cases l with
    | nil =>
        subst hN
        simp only [chunksOf, chunksOfAux, List.length_nil]
        rw [Nat.div_eq_of_lt (by omega)]
    | cons x xs =>
        rw [chunksOf_cons]
        have hlt : (xs.drop (n - 1)).length < N := by
          simp only [List.length_drop]
          simp only [List.length_cons] at hN
          omega
        have hrec := ih (xs.drop (n - 1)).length hlt (xs.drop (n - 1)) rfl
        simp only [List.length_cons, hrec, List.length_drop]
        simp only [List.length_cons] at hN
        subst hN
        rcases le_or_lt (n - 1) xs.length with hcase | hcase
        · have h1 : xs.length - (n - 1) + n - 1 = xs.length := by omega
          have h2 : xs.length + 1 + n - 1 = xs.length + n := by omega
          rw [h1, h2, Nat.add_div_right _ hn]
        · have h1 : xs.length - (n - 1) = 0 := by omega
          have h2 : xs.length + 1 + n - 1 = xs.length + n := by omega
          rw [h1, h2, Nat.zero_add, Nat.add_div_right _ hn,
            Nat.div_eq_of_lt (by omega), Nat.div_eq_of_lt (by omega)]

theorem mem_chunksOf (n : Nat) (hn : 0 < n) (l : List α) :
    ∀ c ∈ chunksOf n l, c ≠ [] ∧ c.length ≤ n ∧ ∀ x ∈ c, x ∈ l := by
  generalize hN : l.length = N
  induction N using Nat.strong_induction_on generalizing l with
  | _ N ih =>
    cases l with
    | nil => intro c hc; simp [chunksOf, chunksOfAux] at hc
    | cons x xs =>
        intro c hc
        rw [chunksOf_cons] at hc
        rcases List.mem_cons.mp hc with rfl | hc
        · refine ⟨List.cons_ne_nil _ _, ?_, ?_⟩
          · simp only [List.length_cons, List.length_take]
            omega
          · intro y hy
            rcases List.mem_cons.mp hy with rfl | hy
            · exact List.mem_cons_self _ _
            · exact List.mem_cons_of_mem _ (List.mem_of_mem_take hy)
        · have hlt : (xs.drop (n - 1)).length < N := by
            simp only [List.length_drop]
            simp only [List.length_cons] at hN
            omega
          obtain ⟨hne, hlen, hsub⟩ := ih (xs.drop (n - 1)).length hlt (xs.drop (n - 1)) rfl c hc
          exact ⟨hne, hlen, fun y hy => List.mem_cons_of_mem _ (List.mem_of_mem_drop (hsub y hy))⟩

theorem chunksOf_ne_nil (n : Nat) {l : List α} (h : l ≠ []) : chunksOf n l ≠ [] := by
  cases l with
  | nil => exact absurd rfl h
  | cons x xs => rw [chunksOf_cons]; exact List.cons_ne_nil _ _

theorem padTo_spec {data : List Nat} {size k : Nat} (hk : data.length = k) (h : k ≤ size) :
    (padTo data size).length = size ∧
    (padTo data size).drop k = List.replicate (size - k) 0 := by
  subst hk
  refine ⟨?_, ?_⟩
  · simp only [padTo, List.length_append, List.length_take, List.length_replicate]
    omega
  · unfold padTo
    rw [List.take_of_length_le h, List.drop_left]

theorem padTo_eq_append {data : List Nat} {size : Nat} (h : data.length ≤ size) :
    padTo data size = data ++ List.replicate (size - data.length) 0 := by
  unfold padTo
  rw [List.take_of_length_le h]

theorem filterMap_eq_map_of_forall_some {f : α → Option β} {h : α → β} :
    ∀ {l : List α}, (∀ x ∈ l, f x = some (h x)) → l.filterMap f = l.map h := by
  intro l H
  induction l with
  | nil => rfl
  | cons x xs ih =>
      rw [List.filterMap_cons, H x (List.mem_cons_self x xs), List.map_cons]
      rw [ih fun a ha => H a (List.mem_cons_of_mem x ha)]

theorem length_filterMap_all_some {f : α → Option β} :
    ∀ {l : List α}, (∀ x ∈ l, (f x).isSome) → (l.filterMap f).length = l.length := by
  intro l h
  induction l with
  | nil => rfl
  | cons x xs ih =>
      cases hfx : f x with
      | none =>
          have := h x (List.mem_cons_self x xs)
          rw [hfx] at this
          simp at this
      | some b =>
          rw [List.filterMap_cons, hfx]
          simp only [List.length_cons]
          rw [ih fun a ha => h a (List.mem_cons_of_mem x ha)]

theorem two_le_length_of_two_mem {a b : α} {l : List α} (ha : a ∈ l) (hb : b ∈ l)
    (hab : a ≠ b) : 2 ≤ l.length := by
  cases l with
  | nil => simp at ha
  | cons x xs =>
      cases xs with
      | nil =>
          simp only [List.mem_singleton] at ha hb
          exact absurd (ha.trans hb.symm) hab
      | cons y ys => simp only [List.length_cons]; omega

theorem length_le_length_flatten {L : List (List β)} (h : ∀ x ∈ L, x ≠ []) :
    L.length ≤ L.flatten.length := by
  induction L with
  | nil => simp
  | cons x xs ih =>
      simp only [List.flatten_cons, List.length_append, List.length_cons]
      have hx : 1 ≤ x.length := by
        have hne := h x (List.mem_cons_self x xs)
        cases x with
        | nil => exact absurd rfl hne
        | cons _ _ => simp
      have := ih fun a ha => h a (List.mem_cons_of_mem x ha)
      omega

theorem dedup_eq_singleton_of_all_eq [DecidableEq α] {g : α} :
    ∀ {l : List α}, l ≠ [] → (∀ x ∈ l, x = g) → l.dedup = [g] := by
  intro l
  induction l with
  | nil => intro h _; exact absurd rfl h
  | cons x xs ih =>
      intro _ hall
      have hx : x = g := hall x (List.mem_cons_self x xs)
      cases xs with
      | nil => subst hx; simp
      | cons y ys =>
          have ht : (y :: ys).dedup = [g] :=
            ih (List.cons_ne_nil _ _) fun z hz => hall z (List.mem_cons_of_mem x hz)
          have hy : y = g := hall y (List.mem_cons_of_mem x (List.mem_cons_self y ys))
          have hxin : x ∈ y :: ys := by
            rw [hx, hy]
            exact List.mem_cons_self _ _
          rw [List.dedup_cons_of_mem hxin, ht]

theorem btreeKeys_singleton (r : α → α → Prop) [DecidableRel r] [DecidableEq α] {g : α}
    {l : List α} (hne : l ≠ []) (hall : ∀ x ∈ l, x = g) : btreeKeys r l = [g] := by
  unfold btreeKeys
  rw [dedup_eq_singleton_of_all_eq hne hall]
  rfl

theorem mem_btreeKeys (r : α → α → Prop) [DecidableRel r] [DecidableEq α] {l : List α}
    {x : α} : x ∈ btreeKeys r l ↔ x ∈ l := by
  unfold btreeKeys
  rw [List.mem_insertionSort, List.mem_dedup]

theorem btreeKeys_sorted (r : α → α → Prop) [DecidableRel r] [DecidableEq α] [IsTotal α r]
    [IsTrans α r] (l : List α) : List.Sorted r (btreeKeys r l) :=
  List.sorted_insertionSort r _

theorem btreeKeys_nodup (r : α → α → Prop) [DecidableRel r] [DecidableEq α] (l : List α) :
    (btreeKeys r l).Nodup :=
  ((List.perm_insertionSort r _).nodup_iff).mpr (List.nodup_dedup l)

theorem group_address_length_eight {model : KeyboardModel} {g : Nat} {addr : List Nat}
    (h3 : model ≠ .G815) (ha : group_address model g = some addr) : addr.length = 8 := by
  cases model <;>
    first
      | exact absurd rfl h3
      | (simp only [group_address] at ha
         split_ifs at ha <;>
           first
             | (injection ha with ha; subst ha; rfl)
             | exact Option.noConfusion ha)
      | (simp only [group_address] at ha
         exact Option.noConfusion ha)

theorem quads_length (c : List KeyValue) :
    ((c.map fun kv =>
      [kv.key.code % 256, kv.color.red, kv.color.green, kv.color.blue]).flatten).length =
      4 * c.length := by
  induction c with
  | nil => rfl
  | cons kv rest ih =>
      simp only [List.map_cons, List.flatten_cons, List.length_append, ih, List.length_cons,
        List.length_nil]
      omega

theorem max_keys_pos (g : Nat) : 0 < max_keys g := by
  unfold max_keys report_size
  split <;> decide

theorem set_keys_packet_generic_eq {model : KeyboardModel} {g : Nat} {addr : List Nat}
    (h1 : model ≠ .G213) (h2 : model ≠ .G413) (h3 : model ≠ .G815)
    {c : List KeyValue} (hc : c ≠ []) (hall : ∀ kv ∈ c, kv.key.group = g)
    (ha : group_address model g = some addr) :
    set_keys_packet model c =
      some (padTo (addr ++
        ((c.take (max_keys g)).map
          (fun kv => [kv.key.code % 256, kv.color.red, kv.color.green, kv.color.blue])).flatten)
        (report_size g)) := by
  cases c with
  | nil => exact absurd rfl hc
  | cons kv0 rest =>
      have hg0 : kv0.key.group = g := hall kv0 (List.mem_cons_self _ _)
      have hany : ((kv0 :: rest).any fun k => decide (k.key.group ≠ g)) = false := by
        rw [List.any_eq_false]
        intro kv hkv
        simp [hall kv hkv]
      cases model <;>
        first
          | exact absurd rfl h1
          | exact absurd rfl h2
          | exact absurd rfl h3
          | (simp only [set_keys_packet, hg0, ha]
             rw [hany]
             rfl)

theorem set_keys_packet_generic_none {model : KeyboardModel} {g : Nat}
    (h1 : model ≠ .G213) (h2 : model ≠ .G413) (h3 : model ≠ .G815)
    {c : List KeyValue} (hc : c ≠ []) (hall : ∀ kv ∈ c, kv.key.group = g)
    (ha : group_address model g = none) : set_keys_packet model c = none := by
  cases c with
  | nil => rfl
  | cons kv0 rest =>
      have hg0 : kv0.key.group = g := hall kv0 (List.mem_cons_self _ _)
      cases model <;>
        first
          | exact absurd rfl h1
          | exact absurd rfl h2
          | exact absurd rfl h3
          | (simp only [set_keys_packet, hg0, ha]
             exact ite_self none)

theorem set_keys_sent_generic_eq {model : KeyboardModel} (h1 : model ≠ .G213)
    (h2 : model ≠ .G413) (h3 : model ≠ .G815) {keys : List KeyValue} (hne : keys ≠ []) :
    set_keys_sent model keys =
      ((btreeKeys (· ≤ ·) (keys.map (fun kv => kv.key.group))).map (fun g =>
        (chunksOf (max_keys g) (keys.filter (fun kv => kv.key.group == g))).filterMap
          (fun chunk => set_keys_packet model chunk))).flatten := by
  cases model <;>
    first
      | exact absurd rfl h1
      | exact absurd rfl h2
      | exact absurd rfl h3
      | (simp only [set_keys_sent, if_neg hne])

theorem set_keys_sent_g815_eq {keys : List KeyValue} (hne : keys ≠ []) :
    set_keys_sent .G815 keys =
      ((btreeKeys colorLe (keys.map (fun kv => kv.color))).map (fun col =>
        (chunksOf 13 (keys.filter (fun kv => kv.color == col))).filterMap
          (fun chunk => set_keys_packet .G815 chunk))).flatten := by
  simp only [set_keys_sent, if_neg hne]

theorem set_keys_packet_g815_some {col : Color} {c : List KeyValue} (hc : c ≠ [])
    (hall : ∀ kv ∈ c, kv.color = col) : (set_keys_packet .G815 c).isSome := by
  cases c with
  | nil => exact absurd rfl hc
  | cons kv0 rest =>
      have h0 : kv0.color = col := hall kv0 (List.mem_cons_self _ _)
      have hany : ((kv0 :: rest).any fun k => decide (k.color ≠ kv0.color)) = false := by
        rw [List.any_eq_false]
        intro kv hkv
        simp [hall kv hkv, h0]
      simp only [set_keys_packet]
      rw [hany]
      rfl

theorem set_keys_packet_g815_mixed {c : List KeyValue} {kv1 kv2 : KeyValue}
    (h1 : kv1 ∈ c) (h2 : kv2 ∈ c) (hne : kv1.color ≠ kv2.color) :
    set_keys_packet .G815 c = none := by
  cases c with
  | nil => simp at h1
  | cons kv0 rest =>
      have hwit : ∃ x ∈ kv0 :: rest, x.color ≠ kv0.color := by
        by_cases h : kv1.color = kv0.color
        · exact ⟨kv2, h2, fun hcon => hne (h.trans hcon.symm)⟩
        · exact ⟨kv1, h1, h⟩
      obtain ⟨x, hx, hxne⟩ := hwit
      have hany : ((kv0 :: rest).any fun k => decide (k.color ≠ kv0.color)) = true :=
        List.any_eq_true.mpr ⟨x, hx, by simp [hxne]⟩
      simp only [set_keys_packet]
      rw [hany]
      rfl

/-! Claim theorems. -/

/-- C10: for every `NativeEffect` variant, the high byte of its 16-bit
discriminant is the discriminant of some `NativeEffectGroup` variant
(a value in 0..=5), so the transmute-based `NativeEffect::group`
accessor is total and well defined on the whole enumeration. -/
theorem c10_effect_group_decode_total :
    ∀ e : NativeEffect, ∃ g : NativeEffectGroup,
      NativeEffectGroup.ofDisc (e.disc / 256) = some g ∧
      NativeEffect.group e = g ∧ g.disc = e.disc / 256 ∧ e.disc / 256 ≤ 5 := by
  intro e
  cases e <;> exact ⟨_, rfl, rfl, by decide, by decide⟩

/-- C2: for every model, effect, period, color and storage, the
translator invoked with part = All yields the concatenation of its
Keys-part result followed by its Logo-part result, each sub-call
contributing its packets or nothing (a `None` sub-result contributes
zero packets), and the All call always succeeds. -/
theorem c2_all_part_is_keys_then_logo :
    ∀ (model : KeyboardModel) (effect : NativeEffect) (period : Nat) (color : Color)
      (storage : NativeEffectStorage),
      native_effect_packets model effect .All period color storage =
        some (((native_effect_packets model effect .Keys period color storage).getD []) ++
              ((native_effect_packets model effect .Logo period color storage).getD [])) := by
  intro model effect period color storage
  rfl

/-- C9: for every model, the set-keys packet builder applied to an
empty batch returns `none`, and the facade's `set_keys` applied to an
empty batch sends nothing and succeeds with the same result whatever
model is bound (the empty-batch early return precedes the model
dispatch). -/
theorem c9_empty_batch_noop :
    (∀ model : KeyboardModel, set_keys_packet model [] = none) ∧
    (∀ (model : KeyboardModel) (send : List Nat → Bool),
      set_keys_sent model [] = [] ∧ runSends send (set_keys_sent model []) = ([], true)) := by
  refine ⟨fun model => rfl, fun model send => ⟨rfl, rfl⟩⟩

/-- C5 (corrected): the 16-bit millisecond value written into bytes
9-12 and 15 of the native-effect base packet is the millisecond count
reduced modulo 2^16 (the Rust `as u16` cast truncates); it is not
saturated to 0xFFFF. -/
theorem c5_base_packet_period_truncated :
    ∀ (model : KeyboardModel) (effect : NativeEffect) (part : NativeEffectPart)
      (period : Nat) (color : Color) (storage : NativeEffectStorage) (p : List Nat),
      native_effect_packet model effect part period color storage = some p →
      p[9]? = some (period % 65536 / 256) ∧
      p[10]? = some (period % 65536 % 256) ∧
      p[11]? = some (period % 65536 / 256) ∧
      p[12]? = some (period % 65536 % 256) ∧
      p[15]? = some (period % 65536 / 256) := by
  intro model effect part period color storage p h
  cases part <;> cases model <;>
    first
      | exact Option.noConfusion h
      | (injection h with h; subst h; exact ⟨rfl, rfl, rfl, rfl, rfl⟩)

theorem c5_base_packet_period_truncated_witness :
    (([0x11, 0xff, 0x0d, 0x3c, 0x00, 0x01, 1, 2, 3, 17, 112, 17, 112, 0x00, 0x64, 17,
       0x00, 0x00, 0x00, 0x00] : List Nat)[9]? = some (70000 % 65536 / 256)) ∧
    (([0x11, 0xff, 0x0d, 0x3c, 0x00, 0x01, 1, 2, 3, 17, 112, 17, 112, 0x00, 0x64, 17,
       0x00, 0x00, 0x00, 0x00] : List Nat)[10]? = some (70000 % 65536 % 256)) ∧
    (([0x11, 0xff, 0x0d, 0x3c, 0x00, 0x01, 1, 2, 3, 17, 112, 17, 112, 0x00, 0x64, 17,
       0x00, 0x00, 0x00, 0x00] : List Nat)[11]? = some (70000 % 65536 / 256)) ∧
    (([0x11, 0xff, 0x0d, 0x3c, 0x00, 0x01, 1, 2, 3, 17, 112, 17, 112, 0x00, 0x64, 17,
       0x00, 0x00, 0x00, 0x00] : List Nat)[12]? = some (70000 % 65536 % 256)) ∧
    (([0x11, 0xff, 0x0d, 0x3c, 0x00, 0x01, 1, 2, 3, 17, 112, 17, 112, 0x00, 0x64, 17,
       0x00, 0x00, 0x00, 0x00] : List Nat)[15]? = some (70000 % 65536 / 256)) :=
  c5_base_packet_period_truncated .G810 .Color .Keys 70000 ⟨1, 2, 3⟩ .None _ (by decide)

/-- C5 counterexample: at a 65536 ms period on the G810, byte 9 of the
base packet is 0x00, whereas saturation to 0xFFFF would demand the
high byte 0xff = (min 65536 0xffff) / 256; the claimed saturation does
not hold. -/
theorem c5_saturation_counterexample :
    ((native_effect_packet .G810 .Color .Keys 65536 ⟨0, 0, 0⟩ .None).getD [])[9]? =
      some 0x00 ∧
    some 0x00 ≠ some (min 65536 0xffff / 256) := by
  exact ⟨by decide, by decide⟩

/-- C8: `commit_packet` returns exactly the `MODEL_SPECS` commit
header zero-padded to 20 bytes when present and no packet when absent;
consequently the facade's commit on a commit-less model (G213, G413,
Unknown) sends zero packets and succeeds for any transport. -/
theorem c8_commit_refines_registry :
    (∀ model : KeyboardModel,
      commit_packet model = (MODEL_SPECS model).commit.map (fun d => padTo d 20)) ∧
    (∀ (model : KeyboardModel) (send : List Nat → Bool),
      (MODEL_SPECS model).commit = none →
      commit_sent model = [] ∧ runSends send (commit_sent model) = ([], true)) ∧
    ((MODEL_SPECS .G213).commit = none ∧ (MODEL_SPECS .G413).commit = none ∧
      (MODEL_SPECS .Unknown).commit = none) := by
  refine ⟨fun model => by cases model <;> rfl, fun model send h => ?_, by decide⟩
  cases model <;> first | exact ⟨rfl, rfl⟩ | exact absurd h (by decide)

theorem c8_commit_refines_registry_witness :
    commit_sent .G213 = [] ∧ runSends (fun _ => false) (commit_sent .G213) = ([], true) :=
  c8_commit_refines_registry.2.1 .G213 (fun _ => false) (by decide)

/-- C7: for every facade method and every bound model, when the
relevant builder or translator yields no packet, the method sends zero
packets and succeeds for any transport: unsupported combinations never
surface as an error.  (For `set_keys` the unsupported condition is
that the builder yields no packet on every chunk, which covers
G213/G413 and the models lacking the batch's group header.) -/
theorem c7_unsupported_is_silent_noop :
    ∀ send : List Nat → Bool,
    (∀ model, commit_packet model = none →
      runSends send (commit_sent model) = ([], true)) ∧
    (∀ model keys, (∀ chunk : List KeyValue, set_keys_packet model chunk = none) →
      runSends send (set_keys_sent model keys) = ([], true)) ∧
    (∀ model region color, region_packet model region color = none →
      runSends send (set_region_sent model region color) = ([], true)) ∧
    (∀ model value, set_mr_key_packet model value = none →
      runSends send (set_mr_key_sent model value) = ([], true)) ∧
    (∀ model value, set_mn_key_packet model value = none →
      runSends send (set_mn_key_sent model value) = ([], true)) ∧
    (∀ model value, set_gkeys_mode_packet model value = none →
      runSends send (set_gkeys_mode_sent model value) = ([], true)) ∧
    (∀ model mode, set_startup_mode_header model = none →
      runSends send (set_startup_mode_sent model mode) = ([], true)) ∧
    (∀ model mode, set_on_board_mode_packet model mode = none →
      runSends send (set_on_board_mode_sent model mode) = ([], true)) ∧
    (∀ model effect part period color storage,
      native_effect_packets model effect part period color storage = none →
      runSends send (set_fx_sent model effect part period color storage) = ([], true)) := by
  intro send
  refine ⟨fun model h => ?_, fun model keys h => ?_, fun model region color h => ?_,
    fun model value h => ?_, fun model value h => ?_, fun model value h => ?_,
    fun model mode h => ?_, fun model mode h => ?_,
    fun model effect part period color storage h => ?_⟩
  · rw [commit_sent, h]; rfl
  · have hempty : set_keys_sent model keys = [] := by
      by_cases hkeys : keys = []
      · subst hkeys; rfl
      · cases model <;> simp only [set_keys_sent, if_neg hkeys] <;>
          first
            | rfl
            | exact flatten_map_eq_nil fun a _ =>
                filterMap_eq_nil_of_none fun c _ => h c
    rw [hempty]; rfl
  · rw [set_region_sent, h]; rfl
  · rw [set_mr_key_sent, h]; rfl
  · rw [set_mn_key_sent, h]; rfl
  · rw [set_gkeys_mode_sent, h]; rfl
  · rw [set_startup_mode_sent, h]; rfl
  · rw [set_on_board_mode_sent, h]; rfl
  · rw [set_fx_sent, h]; rfl

/-- C3: for every model other than the special-cased G815, requesting
a Waves-family effect (group Waves: Waves, HWave, VWave, CWave) on the
Logo part produces exactly the same packets as requesting the static
Color effect with cyan (0,255,255), zero period and the same storage
on the Logo part. -/
theorem c3_waves_logo_cyan_fallback :
    ∀ (model : KeyboardModel) (effect : NativeEffect) (period : Nat) (color : Color)
      (storage : NativeEffectStorage),
      model ≠ .G815 → NativeEffect.group effect = .Waves →
      native_effect_packets model effect .Logo period color storage =
        native_effect_packets model .Color .Logo 0 CYAN storage := by
  intro model effect period color storage hm hg
  cases effect <;> try exact absurd hg (by decide)
  all_goals cases model <;> first | exact absurd rfl hm | rfl

theorem c3_waves_logo_cyan_fallback_witness :
    native_effect_packets .G810 .HWave .Logo 777 ⟨5, 5, 5⟩ .None =
      native_effect_packets .G810 .Color .Logo 0 CYAN .None :=
  c3_waves_logo_cyan_fallback .G810 .HWave 777 ⟨5, 5, 5⟩ .None (by decide) (by decide)

/-- C1 counterexample: on the G410 (a supported model other than
G213/G413/G815) a batch of one multimedia key (Play, address group 2)
produces zero packets, not ceil(1 / max_keys 2) = 1, because the G410
has no header for group 2: the claimed packet count does not hold for
every single-group batch. -/
theorem c1_counterexample :
    Key.Play.group = 2 ∧
    set_keys_sent .G410 [⟨.Play, ⟨255, 255, 255⟩⟩] = [] ∧
    (([⟨.Play, ⟨255, 255, 255⟩⟩] : List KeyValue).length + max_keys 2 - 1) / max_keys 2 = 1 ∧
    (set_keys_sent .G410 [⟨.Play, ⟨255, 255, 255⟩⟩]).length ≠ 1 := by
  decide

/-- C1 (corrected): for every supported model other than
G213/G413/G815 and every non-empty single-group batch, when the model
has a header for that group the encoder's output is exactly the
in-order list of chunk encodings: for each chunk of at most max_keys
keys, the header followed by that chunk's (hid, R, G, B) quadruples
followed by nothing but zeros up to the fixed report size — so there
are exactly ceil(N / max_keys) packets and each packet, in particular
the last shorter one, is zero-padded after its own chunk's 8 + 4·k
data bytes; when the model has no header for the group the encoder
produces zero packets. -/
theorem c1_generic_group_chunking :
    ∀ (model : KeyboardModel) (keys : List KeyValue) (g : Nat),
      generic_supported model → keys ≠ [] → (∀ kv ∈ keys, kv.key.group = g) →
      (∀ addr : List Nat, group_address model g = some addr →
        set_keys_sent model keys =
          (chunksOf (max_keys g) keys).map (fun c =>
            padTo (addr ++ (c.map (fun kv =>
              [kv.key.code % 256, kv.color.red, kv.color.green, kv.color.blue])).flatten)
              (report_size g)) ∧
        (set_keys_sent model keys).length = (keys.length + max_keys g - 1) / max_keys g ∧
        ∀ p ∈ set_keys_sent model keys,
          ∃ c, c ∈ chunksOf (max_keys g) keys ∧ 0 < c.length ∧ c.length ≤ max_keys g ∧
            p = (addr ++ (c.map (fun kv =>
                  [kv.key.code % 256, kv.color.red, kv.color.green, kv.color.blue])).flatten) ++
                List.replicate (report_size g - (8 + 4 * c.length)) 0 ∧
            p.length = report_size g) ∧
      (group_address model g = none → set_keys_sent model keys = []) := by
  intro model keys g hm hne hall
  have hmm : model ≠ .G213 ∧ model ≠ .G413 ∧ model ≠ .G815 := by
    rcases hm with rfl | rfl | rfl | rfl | rfl | rfl | rfl <;>
      exact ⟨by decide, by decide, by decide⟩
  obtain ⟨h1, h2, h3⟩ := hmm
  have hmapne : keys.map (fun kv => kv.key.group) ≠ [] := by
    cases keys with
    | nil => exact absurd rfl hne
    | cons a b => simp
  have hmapall : ∀ x ∈ keys.map (fun kv => kv.key.group), x = g := by
    intro x hx
    obtain ⟨kv, hkv, rfl⟩ := List.mem_map.mp hx
    exact hall kv hkv
  have hfilter : keys.filter (fun kv => kv.key.group == g) = keys :=
    List.filter_eq_self.mpr fun kv hkv => by simp [hall kv hkv]
  have hsent : set_keys_sent model keys =
      (chunksOf (max_keys g) keys).filterMap (fun chunk => set_keys_packet model chunk) := by
    rw [set_keys_sent_generic_eq h1 h2 h3 hne, btreeKeys_singleton _ hmapne hmapall]
    simp only [List.map_cons, List.map_nil, List.flatten_cons, List.flatten_nil,
      List.append_nil, hfilter]
  have hmk := max_keys_pos g
  constructor
  · intro addr ha
    have hchunk : ∀ c ∈ chunksOf (max_keys g) keys,
        set_keys_packet model c =
          some (padTo (addr ++ (c.map (fun kv =>
            [kv.key.code % 256, kv.color.red, kv.color.green, kv.color.blue])).flatten)
            (report_size g)) := by
      intro c hc
      obtain ⟨hcne, hclen, hsub⟩ := mem_chunksOf _ hmk keys c hc
      rw [set_keys_packet_generic_eq h1 h2 h3 hcne (fun kv hkv => hall kv (hsub kv hkv)) ha,
        List.take_of_length_le hclen]
    have heq : set_keys_sent model keys =
        (chunksOf (max_keys g) keys).map (fun c =>
          padTo (addr ++ (c.map (fun kv =>
            [kv.key.code % 256, kv.color.red, kv.color.green, kv.color.blue])).flatten)
            (report_size g)) := by
      rw [hsent]
      exact filterMap_eq_map_of_forall_some hchunk
    refine ⟨heq, ?_, ?_⟩
    · rw [heq, List.length_map, chunksOf_length _ hmk]
    · intro p hp
      rw [heq] at hp
      obtain ⟨c, hc, rfl⟩ := List.mem_map.mp hp
      obtain ⟨hcne, hclen, hsub⟩ := mem_chunksOf _ hmk keys c hc
      have haddr : addr.length = 8 := group_address_length_eight h3 ha
      have hdata : (addr ++ (c.map (fun kv =>
          [kv.key.code % 256, kv.color.red, kv.color.green, kv.color.blue])).flatten).length =
          8 + 4 * c.length := by
        rw [List.length_append, haddr, quads_length]
      have hle : 8 + 4 * c.length ≤ report_size g := by
        have h4 : c.length ≤ max_keys g := hclen
        simp only [max_keys, report_size] at h4 ⊢
        by_cases hg : g = 0 <;> simp [hg] at h4 ⊢ <;> omega
      have hkpos : 0 < c.length := by
        cases c with
        | nil => exact absurd rfl hcne
        | cons _ _ => simp
      refine ⟨c, hc, hkpos, hclen, ?_, (padTo_spec hdata hle).1⟩
      rw [padTo_eq_append (by rw [hdata]; exact hle), hdata]
  · intro ha
    rw [hsent]
    exact filterMap_eq_nil_of_none fun c hc => by
      obtain ⟨hcne, _, hsub⟩ := mem_chunksOf _ hmk keys c hc
      exact set_keys_packet_generic_none h1 h2 h3 hcne
        (fun kv hkv => hall kv (hsub kv hkv)) ha

theorem c1_generic_group_chunking_witness :
    set_keys_sent .G810 [⟨.A, ⟨255, 255, 255⟩⟩] =
      (chunksOf (max_keys 4) ([⟨.A, ⟨255, 255, 255⟩⟩] : List KeyValue)).map (fun c =>
        padTo (PKT_ADDR_4C ++ (c.map (fun kv =>
          [kv.key.code % 256, kv.color.red, kv.color.green, kv.color.blue])).flatten)
          (report_size 4)) ∧
    (set_keys_sent .G810 [⟨.A, ⟨255, 255, 255⟩⟩]).length =
      (([⟨.A, ⟨255, 255, 255⟩⟩] : List KeyValue).length + max_keys 4 - 1) / max_keys 4 :=
  ⟨((c1_generic_group_chunking .G810 [⟨.A, ⟨255, 255, 255⟩⟩] 4 (by decide) (by decide)
      (by decide)).1 PKT_ADDR_4C (by decide)).1,
   ((c1_generic_group_chunking .G810 [⟨.A, ⟨255, 255, 255⟩⟩] 4 (by decide) (by decide)
      (by decide)).1 PKT_ADDR_4C (by decide)).2.1⟩

/-- C4: the G815 set-keys builder returns no packet whenever the batch
contains two distinct colors, and the encoder splits a batch with at
least two distinct colors into at least two packets, each built from a
non-empty color-homogeneous chunk of at most 13 keys. -/
theorem c4_g815_color_homogeneous :
    (∀ (keys : List KeyValue) (kv1 kv2 : KeyValue), kv1 ∈ keys → kv2 ∈ keys →
      kv1.color ≠ kv2.color → set_keys_packet .G815 keys = none) ∧
    (∀ (keys : List KeyValue) (kv1 kv2 : KeyValue), kv1 ∈ keys → kv2 ∈ keys →
      kv1.color ≠ kv2.color →
      2 ≤ (set_keys_sent .G815 keys).length ∧
      ∀ p ∈ set_keys_sent .G815 keys, ∃ c : List KeyValue, c ≠ [] ∧ c.length ≤ 13 ∧
        (∀ a ∈ c, ∀ b ∈ c, a.color = b.color) ∧ set_keys_packet .G815 c = some p) := by
  refine ⟨fun keys kv1 kv2 h1 h2 hne => set_keys_packet_g815_mixed h1 h2 hne,
    fun keys kv1 kv2 h1 h2 hne => ?_⟩
  have hkne : keys ≠ [] := by
    intro hcon
    rw [hcon] at h1
    simp at h1
  rw [set_keys_sent_g815_eq hkne]
  constructor
  · have hc1 : kv1.color ∈ btreeKeys colorLe (keys.map (fun kv => kv.color)) :=
      (mem_btreeKeys _).mpr (List.mem_map.mpr ⟨kv1, h1, rfl⟩)
    have hc2 : kv2.color ∈ btreeKeys colorLe (keys.map (fun kv => kv.color)) :=
      (mem_btreeKeys _).mpr (List.mem_map.mpr ⟨kv2, h2, rfl⟩)
    have hlen2 : 2 ≤ (btreeKeys colorLe (keys.map fun kv => kv.color)).length :=
      two_le_length_of_two_mem hc1 hc2 hne
    have hnonnil : ∀ x ∈ (btreeKeys colorLe (keys.map fun kv => kv.color)).map (fun col =>
        (chunksOf 13 (keys.filter fun kv => kv.color == col)).filterMap
          (fun chunk => set_keys_packet .G815 chunk)), x ≠ [] := by
      intro x hx
      obtain ⟨col, hcol, rfl⟩ := List.mem_map.mp hx
      obtain ⟨kv, hkv, rfl⟩ := List.mem_map.mp ((mem_btreeKeys _).mp hcol)
      have hkvf : kv ∈ keys.filter (fun x => x.color == kv.color) :=
        List.mem_filter.mpr ⟨hkv, by simp⟩
      have hfne : keys.filter (fun x => x.color == kv.color) ≠ [] := by
        intro hcon
        rw [hcon] at hkvf
        simp at hkvf
      have hchne := chunksOf_ne_nil 13 hfne
      have hsome : ∀ c ∈ chunksOf 13 (keys.filter fun x => x.color == kv.color),
          (set_keys_packet .G815 c).isSome := by
        intro c hc
        obtain ⟨hcne, hclen, hsub⟩ := mem_chunksOf 13 (by omega) _ c hc
        exact set_keys_packet_g815_some hcne fun a ha => by
          simpa using (List.mem_filter.mp (hsub a ha)).2
      intro hcon
      have hlen := length_filterMap_all_some hsome
      rw [hcon] at hlen
      cases hch : chunksOf 13 (keys.filter fun x => x.color == kv.color) with
      | nil => exact hchne hch
      | cons a b =>
          rw [hch] at hlen
          simp at hlen
    calc 2 ≤ (btreeKeys colorLe (keys.map fun kv => kv.color)).length := hlen2
      _ = ((btreeKeys colorLe (keys.map fun kv => kv.color)).map (fun col =>
            (chunksOf 13 (keys.filter fun kv => kv.color == col)).filterMap
              (fun chunk => set_keys_packet .G815 chunk))).length :=
          (List.length_map _ _).symm
      _ ≤ _ := length_le_length_flatten hnonnil
  · intro p hp
    obtain ⟨sub, hsub, hpsub⟩ := List.mem_flatten.mp hp
    obtain ⟨col, hcol, rfl⟩ := List.mem_map.mp hsub
    obtain ⟨c, hcchunks, hcp⟩ := List.mem_filterMap.mp hpsub
    obtain ⟨hcne, hclen, hsubc⟩ := mem_chunksOf 13 (by omega) _ c hcchunks
    refine ⟨c, hcne, hclen, ?_, hcp⟩
    intro a haM b hbM
    have hac : a.color = col := by simpa using (List.mem_filter.mp (hsubc a haM)).2
    have hbc : b.color = col := by simpa using (List.mem_filter.mp (hsubc b hbM)).2
    rw [hac, hbc]

theorem c4_g815_color_homogeneous_witness :
    set_keys_packet .G815 [⟨.A, ⟨1, 1, 1⟩⟩, ⟨.B, ⟨2, 2, 2⟩⟩] = none ∧
    2 ≤ (set_keys_sent .G815 [⟨.A, ⟨1, 1, 1⟩⟩, ⟨.B, ⟨2, 2, 2⟩⟩]).length :=
  ⟨c4_g815_color_homogeneous.1 [⟨.A, ⟨1, 1, 1⟩⟩, ⟨.B, ⟨2, 2, 2⟩⟩]
      ⟨.A, ⟨1, 1, 1⟩⟩ ⟨.B, ⟨2, 2, 2⟩⟩ (by decide) (by decide) (by decide),
   (c4_g815_color_homogeneous.2 [⟨.A, ⟨1, 1, 1⟩⟩, ⟨.B, ⟨2, 2, 2⟩⟩]
      ⟨.A, ⟨1, 1, 1⟩⟩ ⟨.B, ⟨2, 2, 2⟩⟩ (by decide) (by decide) (by decide)).1⟩

/-- C6 counterexample: on the G810 the batch [A (group 4), Logo
(group 0)] is emitted with the group-0 partition first, although the
first occurrence in the batch is group 4: the BTreeMap iterates keys
in ascending order, not in insertion order of first occurrence, and
the two packets differ, so the order is observable. -/
theorem c6_counterexample :
    Key.A.group = 4 ∧ Key.Logo.group = 0 ∧
    (set_keys_sent .G810 [⟨.A, ⟨255, 255, 255⟩⟩, ⟨.Logo, ⟨255, 255, 255⟩⟩]).head? =
      set_keys_packet .G810 [⟨.Logo, ⟨255, 255, 255⟩⟩] ∧
    set_keys_packet .G810 [⟨.Logo, ⟨255, 255, 255⟩⟩] ≠
      set_keys_packet .G810 [⟨.A, ⟨255, 255, 255⟩⟩] := by
  decide

/-- C6 (corrected): the key-set encoder emits its partitions in
ascending order of the partition key (strictly ascending address group
for the generic models; lexicographically ascending distinct colors
for the G815), not in insertion order of first occurrence; within each
partition the keys retain their batch order (each partition is the
in-order `filter` of the batch by its key). -/
theorem c6_partition_emission_order :
    (∀ (model : KeyboardModel) (keys : List KeyValue),
      generic_supported model → keys ≠ [] →
      set_keys_sent model keys =
        ((btreeKeys (· ≤ ·) (keys.map (fun kv => kv.key.group))).map (fun g =>
          (chunksOf (max_keys g) (keys.filter (fun kv => kv.key.group == g))).filterMap
            (fun chunk => set_keys_packet model chunk))).flatten ∧
      List.Sorted (· < ·) (btreeKeys (· ≤ ·) (keys.map (fun kv => kv.key.group))) ∧
      (∀ g : Nat, g ∈ btreeKeys (· ≤ ·) (keys.map (fun kv => kv.key.group)) ↔
        g ∈ keys.map (fun kv => kv.key.group))) ∧
    (∀ keys : List KeyValue, keys ≠ [] →
      set_keys_sent .G815 keys =
        ((btreeKeys colorLe (keys.map (fun kv => kv.color))).map (fun col =>
          (chunksOf 13 (keys.filter (fun kv => kv.color == col))).filterMap
            (fun chunk => set_keys_packet .G815 chunk))).flatten ∧
      List.Pairwise (fun a b => colorLe a b ∧ a ≠ b)
        (btreeKeys colorLe (keys.map (fun kv => kv.color))) ∧
      (∀ col : Color, col ∈ btreeKeys colorLe (keys.map (fun kv => kv.color)) ↔
        col ∈ keys.map (fun kv => kv.color))) := by
  constructor
  · intro model keys hm hne
    have hmm : model ≠ .G213 ∧ model ≠ .G413 ∧ model ≠ .G815 := by
      rcases hm with rfl | rfl | rfl | rfl | rfl | rfl | rfl <;>
        exact ⟨by decide, by decide, by decide⟩
    obtain ⟨h1, h2, h3⟩ := hmm
    refine ⟨set_keys_sent_generic_eq h1 h2 h3 hne, ?_, fun g => mem_btreeKeys _⟩
    have hs : List.Sorted (· ≤ ·) (btreeKeys (· ≤ ·) (keys.map fun kv => kv.key.group)) :=
      btreeKeys_sorted _ _
    have hn : (btreeKeys (· ≤ ·) (keys.map fun kv => kv.key.group)).Nodup :=
      btreeKeys_nodup _ _
    exact List.Pairwise.imp₂ (fun a b hle hne2 => lt_of_le_of_ne hle hne2) hs hn
  · intro keys hne
    refine ⟨set_keys_sent_g815_eq hne, ?_, fun col => mem_btreeKeys _⟩
    have hs : List.Sorted colorLe (btreeKeys colorLe (keys.map fun kv => kv.color)) :=
      btreeKeys_sorted _ _
    have hn : (btreeKeys colorLe (keys.map fun kv => kv.color)).Nodup :=
      btreeKeys_nodup _ _
    exact List.Pairwise.imp₂ (fun a b hle hne2 => ⟨hle, hne2⟩) hs hn

theorem c6_partition_emission_order_witness :
    set_keys_sent .G810 [⟨.A, ⟨255, 255, 255⟩⟩, ⟨.Logo, ⟨255, 255, 255⟩⟩] =
      ((btreeKeys (· ≤ ·)
        (([⟨.A, ⟨255, 255, 255⟩⟩, ⟨.Logo, ⟨255, 255, 255⟩⟩] : List KeyValue).map
          (fun kv => kv.key.group))).map (fun g =>
        (chunksOf (max_keys g)
          (([⟨.A, ⟨255, 255, 255⟩⟩, ⟨.Logo, ⟨255, 255, 255⟩⟩] : List KeyValue).filter
            (fun kv => kv.key.group == g))).filterMap
          (fun chunk => set_keys_packet .G810 chunk))).flatten ∧
    List.Sorted (· < ·) (btreeKeys (· ≤ ·)
      (([⟨.A, ⟨255, 255, 255⟩⟩, ⟨.Logo, ⟨255, 255, 255⟩⟩] : List KeyValue).map
        (fun kv => kv.key.group))) :=
  ⟨(c6_partition_emission_order.1 .G810 [⟨.A, ⟨255, 255, 255⟩⟩, ⟨.Logo, ⟨255, 255, 255⟩⟩]
      (by decide) (by decide)).1,
   (c6_partition_emission_order.1 .G810 [⟨.A, ⟨255, 255, 255⟩⟩, ⟨.Logo, ⟨255, 255, 255⟩⟩]
      (by decide) (by decide)).2.1⟩

theorem c7_unsupported_is_silent_noop_witness :
    runSends (fun _ => false) (commit_sent .Unknown) = ([], true) ∧
    runSends (fun _ => false) (set_keys_sent .G213 [⟨.A, ⟨1, 2, 3⟩⟩]) = ([], true) ∧
    runSends (fun _ => false) (set_mr_key_sent .G810 0) = ([], true) ∧
    runSends (fun _ => false)
      (set_fx_sent .Unknown .Color .Keys 0 ⟨0, 0, 0⟩ .None) = ([], true) :=
  ⟨(c7_unsupported_is_silent_noop _).1 .Unknown (by decide),
   (c7_unsupported_is_silent_noop _).2.1 .G213 [⟨.A, ⟨1, 2, 3⟩⟩]
     (fun chunk => by cases chunk <;> rfl),
   (c7_unsupported_is_silent_noop _).2.2.2.1 .G810 0 (by decide),
   (c7_unsupported_is_silent_noop _).2.2.2.2.2.2.2.2 .Unknown .Color .Keys 0 ⟨0, 0, 0⟩ .None
     (by decide)⟩

end LedControl
